import Mathlib

/-!
Shallow embedding of the UTF-8 → UTF-16 transcoding engine of
`src/FAudio_platform_sdl2.c` (functions `FAudio_UTF8_CodePoint` and
`FAudio_UTF8_To_UTF16`, taken from PhysicsFS), together with proofs of the
specified properties.

Modelling conventions:
* Source memory is a function `mem : Nat → Nat`; every read of `*str` in the
  C code appears here as `mem j % 256`, embedding the `(uint32_t)((uint8_t)*str)`
  cast.  The cursor `const char **_str` is an index `i : Nat`; the decoder
  returns the pair (value returned, new cursor index).
* `size_t` arithmetic: the initial `len -= sizeof(uint16_t)` is computed
  modulo 2^64, which is where the wrap-around for `len < 2` shows up.
* The destination buffer is modelled by the list of 16-bit units written, in
  order; each store `*(dst++) = cp` into a `uint16_t` appears as `cp % 65536`
  consed onto the output.  The transcoding loop additionally returns the final
  source cursor and the number of decoder calls it made, so that progress and
  single-pass properties can be stated; the written units are the first
  component.
-/

namespace FAudioC

def UNICODE_BOGUS_CHAR_VALUE : Nat := 0xFFFFFFFF

def UNICODE_BOGUS_CHAR_CODEPOINT : Nat := 0x3F

/-- The `retval` computed by the two-octet branch of `FAudio_UTF8_CodePoint`:
`retval = ((octet << 6) | (octet2 - 128))` after `octet -= (128+64)`. -/
def utf8Retval2 (mem : Nat → Nat) (i : Nat) : Nat :=
  ((mem i % 256 - (128 + 64)) <<< 6) ||| (mem (i + 1) % 256 - 128)

/-- The `retval` computed by the three-octet branch of `FAudio_UTF8_CodePoint`:
`retval = ((octet << 12) | ((octet2-128) << 6) | ((octet3-128)))` after
`octet -= (128+64+32)`. -/
def utf8Retval3 (mem : Nat → Nat) (i : Nat) : Nat :=
  ((mem i % 256 - (128 + 64 + 32)) <<< 12) |||
    ((mem (i + 1) % 256 - 128) <<< 6) ||| (mem (i + 2) % 256 - 128)

/-- The `retval` computed by the four-octet branch of `FAudio_UTF8_CodePoint`:
`retval = ((octet << 18) | ((octet2-128) << 12) | ((octet3-128) << 6) |
((octet4-128)))` after `octet -= (128+64+32+16)`. -/
def utf8Retval4 (mem : Nat → Nat) (i : Nat) : Nat :=
  ((mem i % 256 - (128 + 64 + 32 + 16)) <<< 18) |||
    ((mem (i + 1) % 256 - 128) <<< 12) |||
    ((mem (i + 2) % 256 - 128) <<< 6) ||| (mem (i + 3) % 256 - 128)

/-- `FAudio_UTF8_CodePoint` from `src/FAudio_platform_sdl2.c`.
Takes the memory and the current cursor index, returns
`(value returned, new cursor index)`.  Each branch mirrors the C control
flow, including the cursor updates `(*_str)++` / `*_str += k` (in particular
the six-octet branch performs `(*_str)++` and then `*_str += 6`, a total
advance of 7). -/
def FAudio_UTF8_CodePoint (mem : Nat → Nat) (i : Nat) : Nat × Nat :=
  if mem i % 256 = 0 then
    (0, i)
  else if mem i % 256 < 128 then
    (mem i % 256, i + 1)
  else if mem i % 256 < 192 then
    (UNICODE_BOGUS_CHAR_VALUE, i + 1)
  else if mem i % 256 < 224 then
    -- two octets
    if (mem (i + 1) % 256) &&& (128 + 64) ≠ 128 then (UNICODE_BOGUS_CHAR_VALUE, i + 1)
    else if 0x80 ≤ utf8Retval2 mem i ∧ utf8Retval2 mem i ≤ 0x7FF then
      (utf8Retval2 mem i, i + 2)
    else (UNICODE_BOGUS_CHAR_VALUE, i + 2)
  else if mem i % 256 < 240 then
    -- three octets
    if (mem (i + 1) % 256) &&& (128 + 64) ≠ 128 then (UNICODE_BOGUS_CHAR_VALUE, i + 1)
    else if (mem (i + 2) % 256) &&& (128 + 64) ≠ 128 then (UNICODE_BOGUS_CHAR_VALUE, i + 1)
    else if utf8Retval3 mem i = 0xD800 ∨ utf8Retval3 mem i = 0xDB7F ∨
            utf8Retval3 mem i = 0xDB80 ∨ utf8Retval3 mem i = 0xDBFF ∨
            utf8Retval3 mem i = 0xDC00 ∨ utf8Retval3 mem i = 0xDF80 ∨
            utf8Retval3 mem i = 0xDFFF then
      (UNICODE_BOGUS_CHAR_VALUE, i + 3)
    else if 0x800 ≤ utf8Retval3 mem i ∧ utf8Retval3 mem i ≤ 0xFFFD then
      (utf8Retval3 mem i, i + 3)
    else (UNICODE_BOGUS_CHAR_VALUE, i + 3)
  else if mem i % 256 < 248 then
    -- four octets
    if (mem (i + 1) % 256) &&& (128 + 64) ≠ 128 then (UNICODE_BOGUS_CHAR_VALUE, i + 1)
    else if (mem (i + 2) % 256) &&& (128 + 64) ≠ 128 then (UNICODE_BOGUS_CHAR_VALUE, i + 1)
    else if (mem (i + 3) % 256) &&& (128 + 64) ≠ 128 then (UNICODE_BOGUS_CHAR_VALUE, i + 1)
    else if 0x10000 ≤ utf8Retval4 mem i ∧ utf8Retval4 mem i ≤ 0x10FFFF then
      (utf8Retval4 mem i, i + 4)
    else (UNICODE_BOGUS_CHAR_VALUE, i + 4)
  else if mem i % 256 < 252 then
    -- five octets: value discarded, continuation bytes still validated
    if (mem (i + 1) % 256) &&& (128 + 64) ≠ 128 then (UNICODE_BOGUS_CHAR_VALUE, i + 1)
    else if (mem (i + 2) % 256) &&& (128 + 64) ≠ 128 then (UNICODE_BOGUS_CHAR_VALUE, i + 1)
    else if (mem (i + 3) % 256) &&& (128 + 64) ≠ 128 then (UNICODE_BOGUS_CHAR_VALUE, i + 1)
    else if (mem (i + 4) % 256) &&& (128 + 64) ≠ 128 then (UNICODE_BOGUS_CHAR_VALUE, i + 1)
    else (UNICODE_BOGUS_CHAR_VALUE, i + 5)
  else
    -- six octets: value discarded; the C code does `(*_str)++` and then
    -- `*_str += 6`, so the cursor advance on full validation is 7
    if (mem (i + 1) % 256) &&& (128 + 64) ≠ 128 then (UNICODE_BOGUS_CHAR_VALUE, i + 1)
    else if (mem (i + 2) % 256) &&& (128 + 64) ≠ 128 then (UNICODE_BOGUS_CHAR_VALUE, i + 1)
    else if (mem (i + 3) % 256) &&& (128 + 64) ≠ 128 then (UNICODE_BOGUS_CHAR_VALUE, i + 1)
    else if (mem (i + 4) % 256) &&& (128 + 64) ≠ 128 then (UNICODE_BOGUS_CHAR_VALUE, i + 1)
    else if (mem (i + 5) % 256) &&& (128 + 64) ≠ 128 then (UNICODE_BOGUS_CHAR_VALUE, i + 1)
    else (UNICODE_BOGUS_CHAR_VALUE, i + 7)

/-- The `while (len >= sizeof(uint16_t))` loop of `FAudio_UTF8_To_UTF16`.
`len` is the remaining byte budget after the initial reservation.
Returns `(units written by the loop, final cursor, number of decoder calls)`. -/
def FAudio_To_UTF16_loop (mem : Nat → Nat) (i len : Nat) :
    List Nat × Nat × Nat :=
  if h : 2 ≤ len then
    let r := FAudio_UTF8_CodePoint mem i
    if r.1 = 0 then
      ([], i, 1)
    else
      let cp := if r.1 = UNICODE_BOGUS_CHAR_VALUE then UNICODE_BOGUS_CHAR_CODEPOINT
                else r.1
      if 0xFFFF < cp then
        if len < 2 * 2 then
          ([], r.2, 1)
        else
          let v := cp - 0x10000
          let rest := FAudio_To_UTF16_loop mem r.2 (len - 2 - 2)
          ((0xD800 + ((v >>> 10) &&& 0x3FF)) % 65536 ::
           (0xDC00 + (v &&& 0x3FF)) % 65536 :: rest.1, rest.2.1, rest.2.2 + 1)
      else
        let rest := FAudio_To_UTF16_loop mem r.2 (len - 2)
        (cp % 65536 :: rest.1, rest.2.1, rest.2.2 + 1)
  else
    ([], i, 0)
termination_by len
decreasing_by
  · omega
  · omega

/-- `FAudio_UTF8_To_UTF16` from `src/FAudio_platform_sdl2.c`: the list of all
16-bit units stored into `dst`, in order, including the final terminator
`*dst = 0`.  The initial `len -= sizeof(uint16_t)` is `size_t` arithmetic,
so it wraps modulo 2^64 when `len < 2`. -/
def FAudio_UTF8_To_UTF16 (mem : Nat → Nat) (len : Nat) : List Nat :=
  (FAudio_To_UTF16_loop mem 0 ((len + (2 ^ 64 - 2)) % 2 ^ 64)).1 ++ [0]

/-- Modelled from the spec: the minimal multi-byte UTF-8 encoding of a scalar
(spec §8, round-trip property; the source repository contains no UTF-8
encoder, only the decoder).  Single-byte scalars encode as themselves;
scalars up to 0x7FF as two bytes, up to 0xFFFF as three, above as four. -/
def utf8Encode (s : Nat) : List Nat :=
  if s ≤ 0x7F then [s]
  else if s ≤ 0x7FF then [0xC0 + s / 64, 0x80 + s % 64]
  else if s ≤ 0xFFFF then [0xE0 + s / 4096, 0x80 + s / 64 % 64, 0x80 + s % 64]
  else [0xF0 + s / 262144, 0x80 + s / 4096 % 64, 0x80 + s / 64 % 64, 0x80 + s % 64]

/-! ### Concrete source strings used as test inputs -/

/-- The source string `"A"` (bytes 0x41, 0x00); memory is zero past it. -/
def memA : Nat → Nat := fun j => [0x41, 0].getD j 0

/-- The UTF-8 encoding of U+10000 (bytes F0 90 80 80), null-terminated. -/
def memSupp : Nat → Nat := fun j => [0xF0, 0x90, 0x80, 0x80, 0].getD j 0

/-- A well-formed five-octet sequence (F8 80 80 80 80), null-terminated. -/
def memFive : Nat → Nat := fun j => [0xF8, 0x80, 0x80, 0x80, 0x80, 0].getD j 0

/-- A five-octet lead whose third continuation byte is malformed. -/
def memFiveBad : Nat → Nat := fun j => [0xF8, 0x80, 0x80, 0x41, 0x80, 0].getD j 0

/-- A well-formed six-octet sequence (FC 80 80 80 80 80) with the string
terminator at index 6; memory is zero past it. -/
def memSix : Nat → Nat := fun j => [0xFC, 0x80, 0x80, 0x80, 0x80, 0x80, 0].getD j 0

/-- Identical to `memSix` on every index up to and including the terminator
at index 6, but with the byte 0x41 at index 7, past the terminator. -/
def memSixA : Nat → Nat := fun j => [0xFC, 0x80, 0x80, 0x80, 0x80, 0x80, 0, 0x41].getD j 0

/-! ### Helper lemmas -/

/-- Or-ing a left-shifted value with a value fitting in the shifted-out bits
is addition. -/
lemma shiftLeft_lor_eq (a b k : Nat) (hb : b < 2 ^ k) :
    (a <<< k) ||| b = a * 2 ^ k + b := by
  rw [Nat.shiftLeft_eq, Nat.mul_comm, ← Nat.mul_add_lt_is_or hb, Nat.mul_comm]

/-- Or of disjoint bit ranges is addition. -/
lemma lor_eq_add (A B k : Nat) (hA : A % 2 ^ k = 0) (hB : B < 2 ^ k) :
    A ||| B = A + B := by
  have hA' : 2 ^ k * (A / 2 ^ k) = A :=
    Nat.mul_div_cancel' (Nat.dvd_of_mod_eq_zero hA)
  calc A ||| B = 2 ^ k * (A / 2 ^ k) ||| B := by rw [hA']
    _ = 2 ^ k * (A / 2 ^ k) + B := (Nat.mul_add_lt_is_or hB _).symm
    _ = A + B := by rw [hA']

/-- A well-formed continuation byte `10xxxxxx` passes the `& 0xC0 == 0x80`
check. -/
lemma cont_and_eq : ∀ r, r < 64 → (128 + r) &&& (128 + 64) = 128 := by decide

/-! ### Branch equations for the decoder -/

/-- At a null byte the decoder returns 0 and leaves the cursor unchanged. -/
lemma cp_eos (mem : Nat → Nat) (i : Nat) (h0 : mem i % 256 = 0) :
    FAudio_UTF8_CodePoint mem i = (0, i) := by
  unfold FAudio_UTF8_CodePoint
  rw [if_pos h0]

lemma cp_ascii (mem : Nat → Nat) (i : Nat) (h0 : mem i % 256 ≠ 0)
    (h1 : mem i % 256 < 128) :
    FAudio_UTF8_CodePoint mem i = (mem i % 256, i + 1) := by
  unfold FAudio_UTF8_CodePoint
  rw [if_neg h0, if_pos h1]

lemma cp_cont (mem : Nat → Nat) (i : Nat) (h1 : 128 ≤ mem i % 256)
    (h2 : mem i % 256 < 192) :
    FAudio_UTF8_CodePoint mem i = (UNICODE_BOGUS_CHAR_VALUE, i + 1) := by
  unfold FAudio_UTF8_CodePoint
  rw [if_neg (by omega), if_neg (by omega), if_pos h2]

lemma cp2_bad1 (mem : Nat → Nat) (i : Nat) (h1 : 192 ≤ mem i % 256)
    (h2 : mem i % 256 < 224) (hc : (mem (i + 1) % 256) &&& (128 + 64) ≠ 128) :
    FAudio_UTF8_CodePoint mem i = (UNICODE_BOGUS_CHAR_VALUE, i + 1) := by
  unfold FAudio_UTF8_CodePoint
  rw [if_neg (by omega), if_neg (by omega), if_neg (by omega), if_pos h2, if_pos hc]

lemma cp2_ok (mem : Nat → Nat) (i : Nat) (h1 : 192 ≤ mem i % 256)
    (h2 : mem i % 256 < 224) (hc : (mem (i + 1) % 256) &&& (128 + 64) = 128) :
    FAudio_UTF8_CodePoint mem i =
      if 0x80 ≤ utf8Retval2 mem i ∧ utf8Retval2 mem i ≤ 0x7FF then
        (utf8Retval2 mem i, i + 2)
      else (UNICODE_BOGUS_CHAR_VALUE, i + 2) := by
  unfold FAudio_UTF8_CodePoint
  rw [if_neg (by omega), if_neg (by omega), if_neg (by omega), if_pos h2,
      if_neg (not_not_intro hc)]

lemma cp3_bad1 (mem : Nat → Nat) (i : Nat) (h1 : 224 ≤ mem i % 256)
    (h2 : mem i % 256 < 240) (hc : (mem (i + 1) % 256) &&& (128 + 64) ≠ 128) :
    FAudio_UTF8_CodePoint mem i = (UNICODE_BOGUS_CHAR_VALUE, i + 1) := by
  unfold FAudio_UTF8_CodePoint
  rw [if_neg (by omega), if_neg (by omega), if_neg (by omega), if_neg (by omega),
      if_pos h2, if_pos hc]

lemma cp3_bad2 (mem : Nat → Nat) (i : Nat) (h1 : 224 ≤ mem i % 256)
    (h2 : mem i % 256 < 240) (hc1 : (mem (i + 1) % 256) &&& (128 + 64) = 128)
    (hc2 : (mem (i + 2) % 256) &&& (128 + 64) ≠ 128) :
    FAudio_UTF8_CodePoint mem i = (UNICODE_BOGUS_CHAR_VALUE, i + 1) := by
  unfold FAudio_UTF8_CodePoint
  rw [if_neg (by omega), if_neg (by omega), if_neg (by omega), if_neg (by omega),
      if_pos h2, if_neg (not_not_intro hc1), if_pos hc2]

lemma cp3_ok (mem : Nat → Nat) (i : Nat) (h1 : 224 ≤ mem i % 256)
    (h2 : mem i % 256 < 240) (hc1 : (mem (i + 1) % 256) &&& (128 + 64) = 128)
    (hc2 : (mem (i + 2) % 256) &&& (128 + 64) = 128) :
    FAudio_UTF8_CodePoint mem i =
      if utf8Retval3 mem i = 0xD800 ∨ utf8Retval3 mem i = 0xDB7F ∨
         utf8Retval3 mem i = 0xDB80 ∨ utf8Retval3 mem i = 0xDBFF ∨
         utf8Retval3 mem i = 0xDC00 ∨ utf8Retval3 mem i = 0xDF80 ∨
         utf8Retval3 mem i = 0xDFFF then
        (UNICODE_BOGUS_CHAR_VALUE, i + 3)
      else if 0x800 ≤ utf8Retval3 mem i ∧ utf8Retval3 mem i ≤ 0xFFFD then
        (utf8Retval3 mem i, i + 3)
      else (UNICODE_BOGUS_CHAR_VALUE, i + 3) := by
  unfold FAudio_UTF8_CodePoint
  rw [if_neg (by omega), if_neg (by omega), if_neg (by omega), if_neg (by omega),
      if_pos h2, if_neg (not_not_intro hc1), if_neg (not_not_intro hc2)]

lemma cp4_bad1 (mem : Nat → Nat) (i : Nat) (h1 : 240 ≤ mem i % 256)
    (h2 : mem i % 256 < 248) (hc : (mem (i + 1) % 256) &&& (128 + 64) ≠ 128) :
    FAudio_UTF8_CodePoint mem i = (UNICODE_BOGUS_CHAR_VALUE, i + 1) := by
  unfold FAudio_UTF8_CodePoint
  rw [if_neg (by omega), if_neg (by omega), if_neg (by omega), if_neg (by omega),
      if_neg (by omega), if_pos h2, if_pos hc]

lemma cp4_bad2 (mem : Nat → Nat) (i : Nat) (h1 : 240 ≤ mem i % 256)
    (h2 : mem i % 256 < 248) (hc1 : (mem (i + 1) % 256) &&& (128 + 64) = 128)
    (hc2 : (mem (i + 2) % 256) &&& (128 + 64) ≠ 128) :
    FAudio_UTF8_CodePoint mem i = (UNICODE_BOGUS_CHAR_VALUE, i + 1) := by
  unfold FAudio_UTF8_CodePoint
  rw [if_neg (by omega), if_neg (by omega), if_neg (by omega), if_neg (by omega),
      if_neg (by omega), if_pos h2, if_neg (not_not_intro hc1), if_pos hc2]

lemma cp4_bad3 (mem : Nat → Nat) (i : Nat) (h1 : 240 ≤ mem i % 256)
    (h2 : mem i % 256 < 248) (hc1 : (mem (i + 1) % 256) &&& (128 + 64) = 128)
    (hc2 : (mem (i + 2) % 256) &&& (128 + 64) = 128)
    (hc3 : (mem (i + 3) % 256) &&& (128 + 64) ≠ 128) :
    FAudio_UTF8_CodePoint mem i = (UNICODE_BOGUS_CHAR_VALUE, i + 1) := by
  unfold FAudio_UTF8_CodePoint
  rw [if_neg (by omega), if_neg (by omega), if_neg (by omega), if_neg (by omega),
      if_neg (by omega), if_pos h2, if_neg (not_not_intro hc1),
      if_neg (not_not_intro hc2), if_pos hc3]

lemma cp4_ok (mem : Nat → Nat) (i : Nat) (h1 : 240 ≤ mem i % 256)
    (h2 : mem i % 256 < 248) (hc1 : (mem (i + 1) % 256) &&& (128 + 64) = 128)
    (hc2 : (mem (i + 2) % 256) &&& (128 + 64) = 128)
    (hc3 : (mem (i + 3) % 256) &&& (128 + 64) = 128) :
    FAudio_UTF8_CodePoint mem i =
      if 0x10000 ≤ utf8Retval4 mem i ∧ utf8Retval4 mem i ≤ 0x10FFFF then
        (utf8Retval4 mem i, i + 4)
      else (UNICODE_BOGUS_CHAR_VALUE, i + 4) := by
  unfold FAudio_UTF8_CodePoint
  rw [if_neg (by omega), if_neg (by omega), if_neg (by omega), if_neg (by omega),
      if_neg (by omega), if_pos h2, if_neg (not_not_intro hc1),
      if_neg (not_not_intro hc2), if_neg (not_not_intro hc3)]

lemma cp5_bad (mem : Nat → Nat) (i : Nat) (h1 : 248 ≤ mem i % 256)
    (h2 : mem i % 256 < 252)
    (hbad : (mem (i + 1) % 256) &&& (128 + 64) ≠ 128 ∨
            ((mem (i + 1) % 256) &&& (128 + 64) = 128 ∧
             (mem (i + 2) % 256) &&& (128 + 64) ≠ 128) ∨
            ((mem (i + 1) % 256) &&& (128 + 64) = 128 ∧
             (mem (i + 2) % 256) &&& (128 + 64) = 128 ∧
             (mem (i + 3) % 256) &&& (128 + 64) ≠ 128) ∨
            ((mem (i + 1) % 256) &&& (128 + 64) = 128 ∧
             (mem (i + 2) % 256) &&& (128 + 64) = 128 ∧
             (mem (i + 3) % 256) &&& (128 + 64) = 128 ∧
             (mem (i + 4) % 256) &&& (128 + 64) ≠ 128)) :
    FAudio_UTF8_CodePoint mem i = (UNICODE_BOGUS_CHAR_VALUE, i + 1) := by
  unfold FAudio_UTF8_CodePoint
  rw [if_neg (by omega), if_neg (by omega), if_neg (by omega), if_neg (by omega),
      if_neg (by omega), if_neg (by omega), if_pos h2]
  rcases hbad with h | ⟨g1, h⟩ | ⟨g1, g2, h⟩ | ⟨g1, g2, g3, h⟩
  · rw [if_pos h]
  · rw [if_neg (not_not_intro g1), if_pos h]
  · rw [if_neg (not_not_intro g1), if_neg (not_not_intro g2), if_pos h]
  · rw [if_neg (not_not_intro g1), if_neg (not_not_intro g2),
        if_neg (not_not_intro g3), if_pos h]

lemma cp5_ok (mem : Nat → Nat) (i : Nat) (h1 : 248 ≤ mem i % 256)
    (h2 : mem i % 256 < 252) (hc1 : (mem (i + 1) % 256) &&& (128 + 64) = 128)
    (hc2 : (mem (i + 2) % 256) &&& (128 + 64) = 128)
    (hc3 : (mem (i + 3) % 256) &&& (128 + 64) = 128)
    (hc4 : (mem (i + 4) % 256) &&& (128 + 64) = 128) :
    FAudio_UTF8_CodePoint mem i = (UNICODE_BOGUS_CHAR_VALUE, i + 5) := by
  unfold FAudio_UTF8_CodePoint
  rw [if_neg (by omega), if_neg (by omega), if_neg (by omega), if_neg (by omega),
      if_neg (by omega), if_neg (by omega), if_pos h2, if_neg (not_not_intro hc1),
      if_neg (not_not_intro hc2), if_neg (not_not_intro hc3),
      if_neg (not_not_intro hc4)]

lemma cp6_bad (mem : Nat → Nat) (i : Nat) (h1 : 252 ≤ mem i % 256)
    (hbad : (mem (i + 1) % 256) &&& (128 + 64) ≠ 128 ∨
            ((mem (i + 1) % 256) &&& (128 + 64) = 128 ∧
             (mem (i + 2) % 256) &&& (128 + 64) ≠ 128) ∨
            ((mem (i + 1) % 256) &&& (128 + 64) = 128 ∧
             (mem (i + 2) % 256) &&& (128 + 64) = 128 ∧
             (mem (i + 3) % 256) &&& (128 + 64) ≠ 128) ∨
            ((mem (i + 1) % 256) &&& (128 + 64) = 128 ∧
             (mem (i + 2) % 256) &&& (128 + 64) = 128 ∧
             (mem (i + 3) % 256) &&& (128 + 64) = 128 ∧
             (mem (i + 4) % 256) &&& (128 + 64) ≠ 128) ∨
            ((mem (i + 1) % 256) &&& (128 + 64) = 128 ∧
             (mem (i + 2) % 256) &&& (128 + 64) = 128 ∧
             (mem (i + 3) % 256) &&& (128 + 64) = 128 ∧
             (mem (i + 4) % 256) &&& (128 + 64) = 128 ∧
             (mem (i + 5) % 256) &&& (128 + 64) ≠ 128)) :
    FAudio_UTF8_CodePoint mem i = (UNICODE_BOGUS_CHAR_VALUE, i + 1) := by
  have hlt : mem i % 256 < 256 := Nat.mod_lt _ (by omega)
  unfold FAudio_UTF8_CodePoint
  rw [if_neg (by omega), if_neg (by omega), if_neg (by omega), if_neg (by omega),
      if_neg (by omega), if_neg (by omega), if_neg (by omega)]
  rcases hbad with h | ⟨g1, h⟩ | ⟨g1, g2, h⟩ | ⟨g1, g2, g3, h⟩ | ⟨g1, g2, g3, g4, h⟩
  · rw [if_pos h]
  · rw [if_neg (not_not_intro g1), if_pos h]
  · rw [if_neg (not_not_intro g1), if_neg (not_not_intro g2), if_pos h]
  · rw [if_neg (not_not_intro g1), if_neg (not_not_intro g2),
        if_neg (not_not_intro g3), if_pos h]
  · rw [if_neg (not_not_intro g1), if_neg (not_not_intro g2),
        if_neg (not_not_intro g3), if_neg (not_not_intro g4), if_pos h]

lemma cp6_ok (mem : Nat → Nat) (i : Nat) (h1 : 252 ≤ mem i % 256)
    (hc1 : (mem (i + 1) % 256) &&& (128 + 64) = 128)
    (hc2 : (mem (i + 2) % 256) &&& (128 + 64) = 128)
    (hc3 : (mem (i + 3) % 256) &&& (128 + 64) = 128)
    (hc4 : (mem (i + 4) % 256) &&& (128 + 64) = 128)
    (hc5 : (mem (i + 5) % 256) &&& (128 + 64) = 128) :
    FAudio_UTF8_CodePoint mem i = (UNICODE_BOGUS_CHAR_VALUE, i + 7) := by
  unfold FAudio_UTF8_CodePoint
  rw [if_neg (by omega), if_neg (by omega), if_neg (by omega), if_neg (by omega),
      if_neg (by omega), if_neg (by omega), if_neg (by omega),
      if_neg (not_not_intro hc1), if_neg (not_not_intro hc2),
      if_neg (not_not_intro hc3), if_neg (not_not_intro hc4),
      if_neg (not_not_intro hc5)]

/-- Master case analysis for a single decoder call: every possible outcome of
`FAudio_UTF8_CodePoint` is one of: end-of-string `(0, i)`; an ASCII byte at
`i + 1`; the bogus sentinel with the cursor advanced by 1–7 (by 7 only in the
well-formed six-octet branch); or an accepted two-, three- or four-octet
scalar with its range restrictions. -/
lemma codePoint_elim (mem : Nat → Nat) (i : Nat) (P : Nat × Nat → Prop)
    (H0 : mem i % 256 = 0 → P (0, i))
    (H1 : mem i % 256 ≠ 0 → mem i % 256 < 128 → P (mem i % 256, i + 1))
    (HB : ∀ j, mem i % 256 ≠ 0 → i + 1 ≤ j → j ≤ i + 7 →
          (mem i % 256 < 252 → j ≤ i + 6) → P (UNICODE_BOGUS_CHAR_VALUE, j))
    (H2 : 192 ≤ mem i % 256 → mem i % 256 < 224 → 0x80 ≤ utf8Retval2 mem i →
          utf8Retval2 mem i ≤ 0x7FF → P (utf8Retval2 mem i, i + 2))
    (H3 : 224 ≤ mem i % 256 → mem i % 256 < 240 →
          ¬(utf8Retval3 mem i = 0xD800 ∨ utf8Retval3 mem i = 0xDB7F ∨
            utf8Retval3 mem i = 0xDB80 ∨ utf8Retval3 mem i = 0xDBFF ∨
            utf8Retval3 mem i = 0xDC00 ∨ utf8Retval3 mem i = 0xDF80 ∨
            utf8Retval3 mem i = 0xDFFF) →
          0x800 ≤ utf8Retval3 mem i → utf8Retval3 mem i ≤ 0xFFFD →
          P (utf8Retval3 mem i, i + 3))
    (H4 : 240 ≤ mem i % 256 → mem i % 256 < 248 → 0x10000 ≤ utf8Retval4 mem i →
          utf8Retval4 mem i ≤ 0x10FFFF → P (utf8Retval4 mem i, i + 4)) :
    P (FAudio_UTF8_CodePoint mem i) := by
  by_cases h0 : mem i % 256 = 0
  · rw [cp_eos mem i h0]
    exact H0 h0
  by_cases h1 : mem i % 256 < 128
  · rw [cp_ascii mem i h0 h1]
    exact H1 h0 h1
  by_cases h2 : mem i % 256 < 192
  · rw [cp_cont mem i (by omega) h2]
    exact HB _ h0 (by omega) (by omega) (by omega)
  by_cases h3 : mem i % 256 < 224
  · by_cases hc : (mem (i + 1) % 256) &&& (128 + 64) = 128
    · rw [cp2_ok mem i (by omega) h3 hc]
      by_cases hr : 0x80 ≤ utf8Retval2 mem i ∧ utf8Retval2 mem i ≤ 0x7FF
      · rw [if_pos hr]
        exact H2 (by omega) h3 hr.1 hr.2
      · rw [if_neg hr]
        exact HB _ h0 (by omega) (by omega) (by omega)
    · rw [cp2_bad1 mem i (by omega) h3 hc]
      exact HB _ h0 (by omega) (by omega) (by omega)
  by_cases h4 : mem i % 256 < 240
  · by_cases hc1 : (mem (i + 1) % 256) &&& (128 + 64) = 128
    · by_cases hc2 : (mem (i + 2) % 256) &&& (128 + 64) = 128
      · rw [cp3_ok mem i (by omega) h4 hc1 hc2]
        by_cases hs : utf8Retval3 mem i = 0xD800 ∨ utf8Retval3 mem i = 0xDB7F ∨
            utf8Retval3 mem i = 0xDB80 ∨ utf8Retval3 mem i = 0xDBFF ∨
            utf8Retval3 mem i = 0xDC00 ∨ utf8Retval3 mem i = 0xDF80 ∨
            utf8Retval3 mem i = 0xDFFF
        · rw [if_pos hs]
          exact HB _ h0 (by omega) (by omega) (by omega)
        · rw [if_neg hs]
          by_cases hr : 0x800 ≤ utf8Retval3 mem i ∧ utf8Retval3 mem i ≤ 0xFFFD
          · rw [if_pos hr]
            exact H3 (by omega) h4 hs hr.1 hr.2
          · rw [if_neg hr]
            exact HB _ h0 (by omega) (by omega) (by omega)
      · rw [cp3_bad2 mem i (by omega) h4 hc1 hc2]
        exact HB _ h0 (by omega) (by omega) (by omega)
    · rw [cp3_bad1 mem i (by omega) h4 hc1]
      exact HB _ h0 (by omega) (by omega) (by omega)
  by_cases h5 : mem i % 256 < 248
  · by_cases hc1 : (mem (i + 1) % 256) &&& (128 + 64) = 128
    · by_cases hc2 : (mem (i + 2) % 256) &&& (128 + 64) = 128
      · by_cases hc3 : (mem (i + 3) % 256) &&& (128 + 64) = 128
        · rw [cp4_ok mem i (by omega) h5 hc1 hc2 hc3]
          by_cases hr : 0x10000 ≤ utf8Retval4 mem i ∧ utf8Retval4 mem i ≤ 0x10FFFF
          · rw [if_pos hr]
            exact H4 (by omega) h5 hr.1 hr.2
          · rw [if_neg hr]
            exact HB _ h0 (by omega) (by omega) (by omega)
        · rw [cp4_bad3 mem i (by omega) h5 hc1 hc2 hc3]
          exact HB _ h0 (by omega) (by omega) (by omega)
      · rw [cp4_bad2 mem i (by omega) h5 hc1 hc2]
        exact HB _ h0 (by omega) (by omega) (by omega)
    · rw [cp4_bad1 mem i (by omega) h5 hc1]
      exact HB _ h0 (by omega) (by omega) (by omega)
  by_cases h6 : mem i % 256 < 252
  · by_cases hc1 : (mem (i + 1) % 256) &&& (128 + 64) = 128
    · by_cases hc2 : (mem (i + 2) % 256) &&& (128 + 64) = 128
      · by_cases hc3 : (mem (i + 3) % 256) &&& (128 + 64) = 128
        · by_cases hc4 : (mem (i + 4) % 256) &&& (128 + 64) = 128
          · rw [cp5_ok mem i (by omega) h6 hc1 hc2 hc3 hc4]
            exact HB _ h0 (by omega) (by omega) (by omega)
          · rw [cp5_bad mem i (by omega) h6 (Or.inr (Or.inr (Or.inr ⟨hc1, hc2, hc3, hc4⟩)))]
            exact HB _ h0 (by omega) (by omega) (by omega)
        · rw [cp5_bad mem i (by omega) h6 (Or.inr (Or.inr (Or.inl ⟨hc1, hc2, hc3⟩)))]
          exact HB _ h0 (by omega) (by omega) (by omega)
      · rw [cp5_bad mem i (by omega) h6 (Or.inr (Or.inl ⟨hc1, hc2⟩))]
        exact HB _ h0 (by omega) (by omega) (by omega)
    · rw [cp5_bad mem i (by omega) h6 (Or.inl hc1)]
      exact HB _ h0 (by omega) (by omega) (by omega)
  · by_cases hc1 : (mem (i + 1) % 256) &&& (128 + 64) = 128
    · by_cases hc2 : (mem (i + 2) % 256) &&& (128 + 64) = 128
      · by_cases hc3 : (mem (i + 3) % 256) &&& (128 + 64) = 128
        · by_cases hc4 : (mem (i + 4) % 256) &&& (128 + 64) = 128
          · by_cases hc5 : (mem (i + 5) % 256) &&& (128 + 64) = 128
            · rw [cp6_ok mem i (by omega) hc1 hc2 hc3 hc4 hc5]
              exact HB _ h0 (by omega) (by omega) (by omega)
            · rw [cp6_bad mem i (by omega)
                (Or.inr (Or.inr (Or.inr (Or.inr ⟨hc1, hc2, hc3, hc4, hc5⟩))))]
              exact HB _ h0 (by omega) (by omega) (by omega)
          · rw [cp6_bad mem i (by omega) (Or.inr (Or.inr (Or.inr (Or.inl ⟨hc1, hc2, hc3, hc4⟩))))]
            exact HB _ h0 (by omega) (by omega) (by omega)
        · rw [cp6_bad mem i (by omega) (Or.inr (Or.inr (Or.inl ⟨hc1, hc2, hc3⟩)))]
          exact HB _ h0 (by omega) (by omega) (by omega)
      · rw [cp6_bad mem i (by omega) (Or.inr (Or.inl ⟨hc1, hc2⟩))]
        exact HB _ h0 (by omega) (by omega) (by omega)
    · rw [cp6_bad mem i (by omega) (Or.inl hc1)]
      exact HB _ h0 (by omega) (by omega) (by omega)

/-- The decoder never moves the cursor backwards, and a nonzero result means
the leading byte was nonzero and the cursor advanced by at least one. -/
lemma codePoint_cursor (mem : Nat → Nat) (i : Nat) :
    i ≤ (FAudio_UTF8_CodePoint mem i).2 ∧
    ((FAudio_UTF8_CodePoint mem i).1 ≠ 0 →
      i + 1 ≤ (FAudio_UTF8_CodePoint mem i).2) := by
  refine codePoint_elim mem i
    (fun r => i ≤ r.2 ∧ (r.1 ≠ 0 → i + 1 ≤ r.2)) ?_ ?_ ?_ ?_ ?_ ?_ <;>
    intros <;> dsimp only <;> omega

/-! ### Step equations for the transcoding loop -/

lemma loop_stop (mem : Nat → Nat) (i len : Nat) (h : len < 2) :
    FAudio_To_UTF16_loop mem i len = ([], i, 0) := by
  rw [FAudio_To_UTF16_loop.eq_def, dif_neg (by omega)]

lemma loop_eos (mem : Nat → Nat) (i len : Nat) (h2 : 2 ≤ len)
    (h0 : (FAudio_UTF8_CodePoint mem i).1 = 0) :
    FAudio_To_UTF16_loop mem i len = ([], i, 1) := by
  rw [FAudio_To_UTF16_loop.eq_def, dif_pos h2]
  simp only [h0, if_pos]

lemma loop_single (mem : Nat → Nat) (i len : Nat) (h2 : 2 ≤ len)
    (h0 : (FAudio_UTF8_CodePoint mem i).1 ≠ 0)
    (hle : (if (FAudio_UTF8_CodePoint mem i).1 = UNICODE_BOGUS_CHAR_VALUE
            then UNICODE_BOGUS_CHAR_CODEPOINT
            else (FAudio_UTF8_CodePoint mem i).1) ≤ 0xFFFF) :
    FAudio_To_UTF16_loop mem i len =
      ((if (FAudio_UTF8_CodePoint mem i).1 = UNICODE_BOGUS_CHAR_VALUE
        then UNICODE_BOGUS_CHAR_CODEPOINT
        else (FAudio_UTF8_CodePoint mem i).1) % 65536 ::
         (FAudio_To_UTF16_loop mem (FAudio_UTF8_CodePoint mem i).2 (len - 2)).1,
       (FAudio_To_UTF16_loop mem (FAudio_UTF8_CodePoint mem i).2 (len - 2)).2.1,
       (FAudio_To_UTF16_loop mem (FAudio_UTF8_CodePoint mem i).2 (len - 2)).2.2 + 1) := by
  rw [FAudio_To_UTF16_loop.eq_def, dif_pos h2]
  simp only [if_neg h0,
    if_neg (by omega : ¬ 0xFFFF <
      (if (FAudio_UTF8_CodePoint mem i).1 = UNICODE_BOGUS_CHAR_VALUE
       then UNICODE_BOGUS_CHAR_CODEPOINT else (FAudio_UTF8_CodePoint mem i).1))]

lemma loop_pair_stop (mem : Nat → Nat) (i len : Nat) (h2 : 2 ≤ len)
    (h0 : (FAudio_UTF8_CodePoint mem i).1 ≠ 0)
    (hgt : 0xFFFF < (if (FAudio_UTF8_CodePoint mem i).1 = UNICODE_BOGUS_CHAR_VALUE
                     then UNICODE_BOGUS_CHAR_CODEPOINT
                     else (FAudio_UTF8_CodePoint mem i).1))
    (hlen : len < 4) :
    FAudio_To_UTF16_loop mem i len = ([], (FAudio_UTF8_CodePoint mem i).2, 1) := by
  rw [FAudio_To_UTF16_loop.eq_def, dif_pos h2]
  simp only [if_neg h0, if_pos hgt, if_pos (by omega : len < 2 * 2)]

lemma loop_pair (mem : Nat → Nat) (i len : Nat) (h2 : 2 ≤ len)
    (h0 : (FAudio_UTF8_CodePoint mem i).1 ≠ 0)
    (hgt : 0xFFFF < (if (FAudio_UTF8_CodePoint mem i).1 = UNICODE_BOGUS_CHAR_VALUE
                     then UNICODE_BOGUS_CHAR_CODEPOINT
                     else (FAudio_UTF8_CodePoint mem i).1))
    (hlen : 4 ≤ len) :
    FAudio_To_UTF16_loop mem i len =
      ((0xD800 + ((((if (FAudio_UTF8_CodePoint mem i).1 = UNICODE_BOGUS_CHAR_VALUE
                     then UNICODE_BOGUS_CHAR_CODEPOINT
                     else (FAudio_UTF8_CodePoint mem i).1) - 0x10000) >>> 10) &&& 0x3FF)) % 65536 ::
       (0xDC00 + (((if (FAudio_UTF8_CodePoint mem i).1 = UNICODE_BOGUS_CHAR_VALUE
                    then UNICODE_BOGUS_CHAR_CODEPOINT
                    else (FAudio_UTF8_CodePoint mem i).1) - 0x10000) &&& 0x3FF)) % 65536 ::
         (FAudio_To_UTF16_loop mem (FAudio_UTF8_CodePoint mem i).2 (len - 2 - 2)).1,
       (FAudio_To_UTF16_loop mem (FAudio_UTF8_CodePoint mem i).2 (len - 2 - 2)).2.1,
       (FAudio_To_UTF16_loop mem (FAudio_UTF8_CodePoint mem i).2 (len - 2 - 2)).2.2 + 1) := by
  rw [FAudio_To_UTF16_loop.eq_def, dif_pos h2]
  simp only [if_neg h0, if_pos hgt, if_neg (by omega : ¬ len < 2 * 2)]

/-! ### Invariants of the transcoding loop -/

/-- The loop writes at most `len` bytes (each unit is 2 bytes): every store is
guarded by the remaining byte budget. -/
lemma loop_bytes_le (mem : Nat → Nat) (len : Nat) :
    ∀ i, 2 * (FAudio_To_UTF16_loop mem i len).1.length ≤ len := by
  induction len using Nat.strong_induction_on with
  | _ len ih =>
    intro i
    by_cases h2 : 2 ≤ len
    · by_cases h0 : (FAudio_UTF8_CodePoint mem i).1 = 0
      · rw [loop_eos mem i len h2 h0]
        dsimp only [List.length_nil]
        omega
      · by_cases hgt : 0xFFFF <
            (if (FAudio_UTF8_CodePoint mem i).1 = UNICODE_BOGUS_CHAR_VALUE
             then UNICODE_BOGUS_CHAR_CODEPOINT else (FAudio_UTF8_CodePoint mem i).1)
        · by_cases h4 : len < 4
          · rw [loop_pair_stop mem i len h2 h0 hgt h4]
            dsimp only [List.length_nil]
            omega
          · rw [loop_pair mem i len h2 h0 hgt (by omega)]
            have hrec := ih (len - 2 - 2) (by omega) ((FAudio_UTF8_CodePoint mem i).2)
            dsimp only [List.length_cons]
            omega
        · rw [loop_single mem i len h2 h0 (by omega)]
          have hrec := ih (len - 2) (by omega) ((FAudio_UTF8_CodePoint mem i).2)
          dsimp only [List.length_cons]
          omega
    · rw [loop_stop mem i len (by omega)]
      dsimp only [List.length_nil]
      omega

/-- The final cursor of the loop is at least the starting cursor. -/
lemma loop_cursor_ge (mem : Nat → Nat) (len : Nat) :
    ∀ i, i ≤ (FAudio_To_UTF16_loop mem i len).2.1 := by
  induction len using Nat.strong_induction_on with
  | _ len ih =>
    intro i
    by_cases h2 : 2 ≤ len
    · by_cases h0 : (FAudio_UTF8_CodePoint mem i).1 = 0
      · rw [loop_eos mem i len h2 h0]
      · have hdec := codePoint_cursor mem i
        by_cases hgt : 0xFFFF <
            (if (FAudio_UTF8_CodePoint mem i).1 = UNICODE_BOGUS_CHAR_VALUE
             then UNICODE_BOGUS_CHAR_CODEPOINT else (FAudio_UTF8_CodePoint mem i).1)
        · by_cases h4 : len < 4
          · rw [loop_pair_stop mem i len h2 h0 hgt h4]
            dsimp only
            omega
          · rw [loop_pair mem i len h2 h0 hgt (by omega)]
            have hrec := ih (len - 2 - 2) (by omega) ((FAudio_UTF8_CodePoint mem i).2)
            dsimp only
            omega
        · rw [loop_single mem i len h2 h0 (by omega)]
          have hrec := ih (len - 2) (by omega) ((FAudio_UTF8_CodePoint mem i).2)
          dsimp only
          omega
    · rw [loop_stop mem i len (by omega)]

/-- The loop makes at most one decoder call per source byte it consumes:
the number of calls is bounded by the cursor travel plus one. -/
lemma loop_calls_le (mem : Nat → Nat) (len : Nat) :
    ∀ i, (FAudio_To_UTF16_loop mem i len).2.2 ≤
      (FAudio_To_UTF16_loop mem i len).2.1 - i + 1 := by
  induction len using Nat.strong_induction_on with
  | _ len ih =>
    intro i
    by_cases h2 : 2 ≤ len
    · by_cases h0 : (FAudio_UTF8_CodePoint mem i).1 = 0
      · rw [loop_eos mem i len h2 h0]
        dsimp only
        omega
      · have hadv := (codePoint_cursor mem i).2 h0
        by_cases hgt : 0xFFFF <
            (if (FAudio_UTF8_CodePoint mem i).1 = UNICODE_BOGUS_CHAR_VALUE
             then UNICODE_BOGUS_CHAR_CODEPOINT else (FAudio_UTF8_CodePoint mem i).1)
        · by_cases h4 : len < 4
          · rw [loop_pair_stop mem i len h2 h0 hgt h4]
            dsimp only
            omega
          · rw [loop_pair mem i len h2 h0 hgt (by omega)]
            have hrec := ih (len - 2 - 2) (by omega) ((FAudio_UTF8_CodePoint mem i).2)
            have hmono := loop_cursor_ge mem (len - 2 - 2) ((FAudio_UTF8_CodePoint mem i).2)
            dsimp only
            omega
        · rw [loop_single mem i len h2 h0 (by omega)]
          have hrec := ih (len - 2) (by omega) ((FAudio_UTF8_CodePoint mem i).2)
          have hmono := loop_cursor_ge mem (len - 2) ((FAudio_UTF8_CodePoint mem i).2)
          dsimp only
          omega
    · rw [loop_stop mem i len (by omega)]
      dsimp only
      omega

/-! ### Claim theorems -/

/-- C1, counterexample: with destination byte-capacity `len = 0` the claim
"the writer never writes past the supplied byte-capacity" fails: on source
`"A"` the writer stores 2 units (4 bytes), because `len -= sizeof(uint16_t)`
wraps around in `size_t` arithmetic. -/
theorem C1_counterexample :
    ¬ (2 * (FAudio_UTF8_To_UTF16 memA 0).length ≤ 0) := by
  have hd0 : FAudio_UTF8_CodePoint memA 0 = (0x41, 1) := rfl
  have hd1 : FAudio_UTF8_CodePoint memA 1 = (0, 1) := rfl
  have h : FAudio_UTF8_To_UTF16 memA 0 = [0x41, 0] := by
    rw [FAudio_UTF8_To_UTF16,
        (by omega : ((0:Nat) + (2 ^ 64 - 2)) % 2 ^ 64 = 2 ^ 64 - 2),
        loop_single memA 0 (2 ^ 64 - 2) (by omega)
          (by rw [hd0]; decide) (by rw [hd0]; decide),
        hd0]
    dsimp only
    rw [loop_eos memA 1 (2 ^ 64 - 2 - 2) (by omega) (by rw [hd1])]
    norm_num [UNICODE_BOGUS_CHAR_VALUE]
  rw [h]
  norm_num

/-- C1 (amended): for every source and every byte-capacity `2 ≤ len < 2^64`
the writer stores at most `len` bytes, and for every `len` whatsoever the
last unit written is the zero terminator.  (For `len = 0` or `len = 1` the
byte budget wraps around and the capacity bound fails, as the counterexample
shows.) -/
theorem C1_transcode_bounded (mem : Nat → Nat) (len : Nat) :
    (2 ≤ len → len < 2 ^ 64 → 2 * (FAudio_UTF8_To_UTF16 mem len).length ≤ len) ∧
    (FAudio_UTF8_To_UTF16 mem len).getLast? = some 0 := by
  constructor
  · intro h2 h64
    rw [FAudio_UTF8_To_UTF16,
        (by omega : (len + (2 ^ 64 - 2)) % 2 ^ 64 = len - 2)]
    have hb := loop_bytes_le mem (len - 2) 0
    rw [List.length_append]
    dsimp only [List.length_cons, List.length_nil]
    omega
  · rw [FAudio_UTF8_To_UTF16]
    exact List.getLast?_concat _

/-- Witness for C1 at source `"A"`, capacity 8 bytes. -/
theorem C1_witness :
    2 * (FAudio_UTF8_To_UTF16 memA 8).length ≤ 8 ∧
    (FAudio_UTF8_To_UTF16 memA 8).getLast? = some 0 :=
  ⟨(C1_transcode_bounded memA 8).1 (by norm_num) (by norm_num),
   (C1_transcode_bounded memA 8).2⟩

/-- C2, counterexample: with byte-capacity `2 * sizeof(uint16_t)` (4 bytes)
and non-empty source `"A"` the output is `[0x41, 0]`, not just the
terminator: the reserved budget after the terminator slot is one unit, and
the loop uses it. -/
theorem C2_counterexample : FAudio_UTF8_To_UTF16 memA 4 ≠ [0] := by
  have hd0 : FAudio_UTF8_CodePoint memA 0 = (0x41, 1) := rfl
  have h : FAudio_UTF8_To_UTF16 memA 4 = [0x41, 0] := by
    rw [FAudio_UTF8_To_UTF16,
        (by omega : ((4:Nat) + (2 ^ 64 - 2)) % 2 ^ 64 = 2),
        loop_single memA 0 2 (by omega)
          (by rw [hd0]; decide) (by rw [hd0]; decide),
        hd0]
    dsimp only
    rw [loop_stop memA 1 (2 - 2) (by omega)]
    norm_num [UNICODE_BOGUS_CHAR_VALUE]
  rw [h]
  decide

/-- C2 (amended): for every non-empty source, a byte-capacity of 2 or 3
bytes (i.e. `sizeof(uint16_t)` plus at most one spare byte, room for the
terminator and nothing else) produces a destination holding only the zero
terminator. -/
theorem C2_only_terminator (mem : Nat → Nat) (len : Nat)
    (_hne : mem 0 % 256 ≠ 0) (hlen : len = 2 ∨ len = 3) :
    FAudio_UTF8_To_UTF16 mem len = [0] := by
  rw [FAudio_UTF8_To_UTF16, loop_stop mem 0 _ (by omega)]
  rfl

/-- Witness for C2 at source `"A"`, capacity 2 bytes. -/
theorem C2_witness : FAudio_UTF8_To_UTF16 memA 2 = [0] :=
  C2_only_terminator memA 2 (by decide) (Or.inl rfl)

/-- C3, counterexample: with byte-capacity `3 * sizeof(uint16_t)` (6 bytes)
and a source whose first scalar is U+10000, the output is the full pair
`[0xD800, 0xDC00, 0]`, not a single terminator: after reserving the
terminator the budget is exactly two units, which the pair fits. -/
theorem C3_counterexample : FAudio_UTF8_To_UTF16 memSupp 6 ≠ [0] := by
  have hd0 : FAudio_UTF8_CodePoint memSupp 0 = (0x10000, 4) := rfl
  have hd4 : FAudio_UTF8_CodePoint memSupp 4 = (0, 4) := rfl
  have h : FAudio_UTF8_To_UTF16 memSupp 6 = [0xD800, 0xDC00, 0] := by
    rw [FAudio_UTF8_To_UTF16,
        (by omega : ((6:Nat) + (2 ^ 64 - 2)) % 2 ^ 64 = 4),
        loop_pair memSupp 0 4 (by omega)
          (by rw [hd0]; decide) (by rw [hd0]; decide) (by omega),
        hd0]
    dsimp only
    rw [loop_stop memSupp 4 (4 - 2 - 2) (by omega)]
    norm_num [UNICODE_BOGUS_CHAR_VALUE]
  rw [h]
  decide

/-- C3 (amended): with byte-capacity 4 or 5 (budget below two units after
the terminator reservation) and a source whose first decoded scalar needs a
surrogate pair, the output is a single terminator unit: no dangling high
surrogate and no truncated pair is ever written. -/
theorem C3_no_dangling_surrogate (mem : Nat → Nat) (len : Nat)
    (hbog : (FAudio_UTF8_CodePoint mem 0).1 ≠ UNICODE_BOGUS_CHAR_VALUE)
    (hgt : 0xFFFF < (FAudio_UTF8_CodePoint mem 0).1)
    (hlen : len = 4 ∨ len = 5) :
    FAudio_UTF8_To_UTF16 mem len = [0] := by
  have hcp : (if (FAudio_UTF8_CodePoint mem 0).1 = UNICODE_BOGUS_CHAR_VALUE
              then UNICODE_BOGUS_CHAR_CODEPOINT
              else (FAudio_UTF8_CodePoint mem 0).1)
             = (FAudio_UTF8_CodePoint mem 0).1 := if_neg hbog
  rw [FAudio_UTF8_To_UTF16,
      (by omega : (len + (2 ^ 64 - 2)) % 2 ^ 64 = len - 2),
      loop_pair_stop mem 0 (len - 2) (by omega) (by omega)
        (by rw [hcp]; omega) (by omega)]
  rfl

/-- Witness for C3 at the encoding of U+10000, capacity 4 bytes. -/
theorem C3_witness : FAudio_UTF8_To_UTF16 memSupp 4 = [0] := by
  have hd0 : FAudio_UTF8_CodePoint memSupp 0 = (0x10000, 4) := rfl
  exact C3_no_dangling_surrogate memSupp 4 (by rw [hd0]; decide) (by rw [hd0]; decide)
    (Or.inl rfl)

/-- C4, counterexample: at the end-of-string byte (leading byte 0) the
decoder does not advance at all, refuting "advances the cursor by at least 1
in every branch including the end-of-string case". -/
theorem C4_counterexample :
    ¬ (0 + 1 ≤ (FAudio_UTF8_CodePoint (fun _ => 0) 0).2) := by decide

/-- C4 (amended): a single decoder call leaves the cursor unchanged in the
end-of-string case and otherwise advances it by at least 1 and at most 7
bytes; every branch with a leading byte below 0xFC advances at most 6, and
only the well-formed six-octet branch advances 7. -/
theorem C4_cursor_advance (mem : Nat → Nat) (i : Nat) :
    (mem i % 256 = 0 → (FAudio_UTF8_CodePoint mem i).2 = i) ∧
    (mem i % 256 ≠ 0 →
      i + 1 ≤ (FAudio_UTF8_CodePoint mem i).2 ∧
      (FAudio_UTF8_CodePoint mem i).2 ≤ i + 7 ∧
      (mem i % 256 < 252 → (FAudio_UTF8_CodePoint mem i).2 ≤ i + 6)) := by
  refine codePoint_elim mem i (fun r =>
      (mem i % 256 = 0 → r.2 = i) ∧
      (mem i % 256 ≠ 0 → i + 1 ≤ r.2 ∧ r.2 ≤ i + 7 ∧
        (mem i % 256 < 252 → r.2 ≤ i + 6))) ?_ ?_ ?_ ?_ ?_ ?_ <;>
    intros <;> dsimp only <;> omega

/-- Witness for C4 at the source `"A"`. -/
theorem C4_witness :
    1 ≤ (FAudio_UTF8_CodePoint memA 0).2 ∧ (FAudio_UTF8_CodePoint memA 0).2 ≤ 7 := by
  have h := (C4_cursor_advance memA 0).2 (by decide)
  exact ⟨h.1, h.2.1⟩

/-- C5: evaluation at the failing input.  On the well-formed five-octet
sequence the decoder returns bogus and advances exactly 5 bytes, as the
claim states; but on the well-formed six-octet sequence F8..FD-class input
`FC 80 80 80 80 80` it advances 7 bytes, not 6: the C code runs `(*_str)++`
and then `*_str += 6`, skipping one byte it never read.  On a malformed
continuation byte it returns bogus having advanced exactly 1 byte (past the
leading byte only). -/
theorem C5_six_octet_advance :
    FAudio_UTF8_CodePoint memFive 0 = (UNICODE_BOGUS_CHAR_VALUE, 5) ∧
    FAudio_UTF8_CodePoint memSix 0 = (UNICODE_BOGUS_CHAR_VALUE, 7) ∧
    FAudio_UTF8_CodePoint memFiveBad 0 = (UNICODE_BOGUS_CHAR_VALUE, 1) := by
  refine ⟨rfl, rfl, rfl⟩

/-- C6: for every scalar in [0x80, 0x7FF], in [0x800, 0xFFFD] minus the
seven reserved surrogate code points, or in [0x10000, 0x10FFFF], encoding it
into its minimal multi-byte UTF-8 form and decoding those bytes yields the
original scalar, with the cursor advanced by exactly the encoded length. -/
theorem C6_roundtrip (s : Nat)
    (h : (0x80 ≤ s ∧ s ≤ 0x7FF) ∨
         (0x800 ≤ s ∧ s ≤ 0xFFFD ∧ s ≠ 0xD800 ∧ s ≠ 0xDB7F ∧ s ≠ 0xDB80 ∧
          s ≠ 0xDBFF ∧ s ≠ 0xDC00 ∧ s ≠ 0xDF80 ∧ s ≠ 0xDFFF) ∨
         (0x10000 ≤ s ∧ s ≤ 0x10FFFF)) :
    FAudio_UTF8_CodePoint (fun j => (utf8Encode s).getD j 0) 0 =
      (s, (utf8Encode s).length) := by
  rcases h with ⟨hlo, hhi⟩ |
    ⟨hlo, hhi, hs1, hs2, hs3, hs4, hs5, hs6, hs7⟩ | ⟨hlo, hhi⟩
  · -- two-byte form
    have he : utf8Encode s = [0xC0 + s / 64, 0x80 + s % 64] := by
      unfold utf8Encode
      rw [if_neg (by omega), if_pos (by omega)]
    rw [he]
    rw [cp2_ok (fun j => [0xC0 + s / 64, 0x80 + s % 64].getD j 0) 0
          (show (192:Nat) ≤ (0xC0 + s / 64) % 256 by omega)
          (show (0xC0 + s / 64) % 256 < 224 by omega)
          (show ((0x80 + s % 64) % 256) &&& (128 + 64) = 128 by
            rw [Nat.mod_eq_of_lt (by omega)]
            exact cont_and_eq (s % 64) (by omega))]
    have hr : utf8Retval2 (fun j => [0xC0 + s / 64, 0x80 + s % 64].getD j 0) 0 = s := by
      show (((0xC0 + s / 64) % 256 - (128 + 64)) <<< 6) |||
        ((0x80 + s % 64) % 256 - 128) = s
      rw [Nat.mod_eq_of_lt (by omega : 0xC0 + s / 64 < 256),
          Nat.mod_eq_of_lt (by omega : 0x80 + s % 64 < 256),
          (by omega : 0xC0 + s / 64 - (128 + 64) = s / 64),
          (by omega : 0x80 + s % 64 - 128 = s % 64),
          lor_eq_add ((s / 64) <<< 6) (s % 64) 6 (by omega) (by omega)]
      omega
    rw [hr, if_pos ⟨hlo, hhi⟩]
    rfl
  · -- three-byte form
    have he : utf8Encode s = [0xE0 + s / 4096, 0x80 + s / 64 % 64, 0x80 + s % 64] := by
      unfold utf8Encode
      rw [if_neg (by omega), if_neg (by omega), if_pos (by omega)]
    rw [he]
    rw [cp3_ok (fun j => [0xE0 + s / 4096, 0x80 + s / 64 % 64, 0x80 + s % 64].getD j 0) 0
          (show (224:Nat) ≤ (0xE0 + s / 4096) % 256 by omega)
          (show (0xE0 + s / 4096) % 256 < 240 by omega)
          (show ((0x80 + s / 64 % 64) % 256) &&& (128 + 64) = 128 by
            rw [Nat.mod_eq_of_lt (by omega)]
            exact cont_and_eq (s / 64 % 64) (by omega))
          (show ((0x80 + s % 64) % 256) &&& (128 + 64) = 128 by
            rw [Nat.mod_eq_of_lt (by omega)]
            exact cont_and_eq (s % 64) (by omega))]
    have hr : utf8Retval3
        (fun j => [0xE0 + s / 4096, 0x80 + s / 64 % 64, 0x80 + s % 64].getD j 0) 0 = s := by
      show ((((0xE0 + s / 4096) % 256 - (128 + 64 + 32)) <<< 12) |||
            (((0x80 + s / 64 % 64) % 256 - 128) <<< 6)) |||
            ((0x80 + s % 64) % 256 - 128) = s
      rw [Nat.mod_eq_of_lt (by omega : 0xE0 + s / 4096 < 256),
          Nat.mod_eq_of_lt (by omega : 0x80 + s / 64 % 64 < 256),
          Nat.mod_eq_of_lt (by omega : 0x80 + s % 64 < 256),
          (by omega : 0xE0 + s / 4096 - (128 + 64 + 32) = s / 4096),
          (by omega : 0x80 + s / 64 % 64 - 128 = s / 64 % 64),
          (by omega : 0x80 + s % 64 - 128 = s % 64),
          lor_eq_add ((s / 4096) <<< 12) ((s / 64 % 64) <<< 6) 12 (by omega) (by omega),
          lor_eq_add ((s / 4096) <<< 12 + (s / 64 % 64) <<< 6) (s % 64) 6
            (by omega) (by omega)]
      omega
    rw [hr, if_neg (by omega), if_pos ⟨hlo, hhi⟩]
    rfl
  · -- four-byte form
    have he : utf8Encode s =
        [0xF0 + s / 262144, 0x80 + s / 4096 % 64, 0x80 + s / 64 % 64, 0x80 + s % 64] := by
      unfold utf8Encode
      rw [if_neg (by omega), if_neg (by omega), if_neg (by omega)]
    rw [he]
    rw [cp4_ok (fun j =>
          [0xF0 + s / 262144, 0x80 + s / 4096 % 64, 0x80 + s / 64 % 64,
           0x80 + s % 64].getD j 0) 0
          (show (240:Nat) ≤ (0xF0 + s / 262144) % 256 by omega)
          (show (0xF0 + s / 262144) % 256 < 248 by omega)
          (show ((0x80 + s / 4096 % 64) % 256) &&& (128 + 64) = 128 by
            rw [Nat.mod_eq_of_lt (by omega)]
            exact cont_and_eq (s / 4096 % 64) (by omega))
          (show ((0x80 + s / 64 % 64) % 256) &&& (128 + 64) = 128 by
            rw [Nat.mod_eq_of_lt (by omega)]
            exact cont_and_eq (s / 64 % 64) (by omega))
          (show ((0x80 + s % 64) % 256) &&& (128 + 64) = 128 by
            rw [Nat.mod_eq_of_lt (by omega)]
            exact cont_and_eq (s % 64) (by omega))]
    have hr : utf8Retval4
        (fun j => [0xF0 + s / 262144, 0x80 + s / 4096 % 64, 0x80 + s / 64 % 64,
                   0x80 + s % 64].getD j 0) 0 = s := by
      show (((((0xF0 + s / 262144) % 256 - (128 + 64 + 32 + 16)) <<< 18) |||
             (((0x80 + s / 4096 % 64) % 256 - 128) <<< 12)) |||
            (((0x80 + s / 64 % 64) % 256 - 128) <<< 6)) |||
            ((0x80 + s % 64) % 256 - 128) = s
      rw [Nat.mod_eq_of_lt (by omega : 0xF0 + s / 262144 < 256),
          Nat.mod_eq_of_lt (by omega : 0x80 + s / 4096 % 64 < 256),
          Nat.mod_eq_of_lt (by omega : 0x80 + s / 64 % 64 < 256),
          Nat.mod_eq_of_lt (by omega : 0x80 + s % 64 < 256),
          (by omega : 0xF0 + s / 262144 - (128 + 64 + 32 + 16) = s / 262144),
          (by omega : 0x80 + s / 4096 % 64 - 128 = s / 4096 % 64),
          (by omega : 0x80 + s / 64 % 64 - 128 = s / 64 % 64),
          (by omega : 0x80 + s % 64 - 128 = s % 64),
          lor_eq_add ((s / 262144) <<< 18) ((s / 4096 % 64) <<< 12) 18
            (by omega) (by omega),
          lor_eq_add ((s / 262144) <<< 18 + (s / 4096 % 64) <<< 12)
            ((s / 64 % 64) <<< 6) 12 (by omega) (by omega),
          lor_eq_add ((s / 262144) <<< 18 + (s / 4096 % 64) <<< 12 + (s / 64 % 64) <<< 6)
            (s % 64) 6 (by omega) (by omega)]
      omega
    rw [hr, if_pos ⟨hlo, hhi⟩]
    rfl

/-- Witness for C6 at the scalar 0x80 (two-byte form C2 80). -/
theorem C6_witness :
    FAudio_UTF8_CodePoint (fun j => (utf8Encode 0x80).getD j 0) 0 =
      (0x80, (utf8Encode 0x80).length) :=
  C6_roundtrip 0x80 (Or.inl (by decide))

/-- C7: for a decoded scalar above 0xFFFF (and not the bogus sentinel), with
at least two units of budget the loop emits exactly the high surrogate
`0xD800 + (((s - 0x10000) >> 10) & 0x3FF)` followed by the low surrogate
`0xDC00 + ((s - 0x10000) & 0x3FF)`; with less than two units it stops before
emitting anything, so no partial pair is ever written. -/
theorem C7_surrogate_pair (mem : Nat → Nat) (i len : Nat)
    (hbog : (FAudio_UTF8_CodePoint mem i).1 ≠ UNICODE_BOGUS_CHAR_VALUE)
    (hgt : 0xFFFF < (FAudio_UTF8_CodePoint mem i).1) :
    (4 ≤ len →
      (FAudio_To_UTF16_loop mem i len).1 =
        (0xD800 + ((((FAudio_UTF8_CodePoint mem i).1 - 0x10000) >>> 10) &&& 0x3FF)) ::
        (0xDC00 + (((FAudio_UTF8_CodePoint mem i).1 - 0x10000) &&& 0x3FF)) ::
        (FAudio_To_UTF16_loop mem (FAudio_UTF8_CodePoint mem i).2 (len - 2 - 2)).1) ∧
    (len < 4 → (FAudio_To_UTF16_loop mem i len).1 = []) := by
  have hcp : (if (FAudio_UTF8_CodePoint mem i).1 = UNICODE_BOGUS_CHAR_VALUE
              then UNICODE_BOGUS_CHAR_CODEPOINT
              else (FAudio_UTF8_CodePoint mem i).1)
             = (FAudio_UTF8_CodePoint mem i).1 := if_neg hbog
  constructor
  · intro h4
    rw [loop_pair mem i len (by omega) (by omega) (by rw [hcp]; omega) h4, hcp]
    dsimp only
    have b1 : (((FAudio_UTF8_CodePoint mem i).1 - 0x10000) >>> 10) &&& 0x3FF ≤ 0x3FF :=
      Nat.and_le_right
    have b2 : ((FAudio_UTF8_CodePoint mem i).1 - 0x10000) &&& 0x3FF ≤ 0x3FF :=
      Nat.and_le_right
    rw [Nat.mod_eq_of_lt (by omega), Nat.mod_eq_of_lt (by omega)]
  · intro h4
    by_cases h2 : 2 ≤ len
    · rw [loop_pair_stop mem i len h2 (by omega) (by rw [hcp]; omega) h4]
    · rw [loop_stop mem i len (by omega)]

/-- Witness for C7: transcoding U+10000 with a two-unit loop budget emits
exactly the units 0xD800, 0xDC00. -/
theorem C7_witness : (FAudio_To_UTF16_loop memSupp 0 6).1 = [0xD800, 0xDC00] := by
  have hd0 : FAudio_UTF8_CodePoint memSupp 0 = (0x10000, 4) := rfl
  have hd4 : FAudio_UTF8_CodePoint memSupp 4 = (0, 4) := rfl
  have h := (C7_surrogate_pair memSupp 0 6 (by rw [hd0]; decide)
    (by rw [hd0]; decide)).1 (by omega)
  rw [hd0] at h
  dsimp only at h
  rw [loop_eos memSupp 4 (6 - 2 - 2) (by omega) (by rw [hd4])] at h
  simpa using h

/-- C8: the decoder only ever returns 0 (end of string), the bogus sentinel
0xFFFFFFFF, or a scalar at most 0x10FFFF that is none of the seven reserved
surrogate code points and neither 0xFFFE nor 0xFFFF. -/
theorem C8_decoder_range (mem : Nat → Nat) (i : Nat) :
    (FAudio_UTF8_CodePoint mem i).1 = 0 ∨
    (FAudio_UTF8_CodePoint mem i).1 = UNICODE_BOGUS_CHAR_VALUE ∨
    ((FAudio_UTF8_CodePoint mem i).1 ≤ 0x10FFFF ∧
     (FAudio_UTF8_CodePoint mem i).1 ≠ 0xD800 ∧
     (FAudio_UTF8_CodePoint mem i).1 ≠ 0xDB7F ∧
     (FAudio_UTF8_CodePoint mem i).1 ≠ 0xDB80 ∧
     (FAudio_UTF8_CodePoint mem i).1 ≠ 0xDBFF ∧
     (FAudio_UTF8_CodePoint mem i).1 ≠ 0xDC00 ∧
     (FAudio_UTF8_CodePoint mem i).1 ≠ 0xDF80 ∧
     (FAudio_UTF8_CodePoint mem i).1 ≠ 0xDFFF ∧
     (FAudio_UTF8_CodePoint mem i).1 ≠ 0xFFFE ∧
     (FAudio_UTF8_CodePoint mem i).1 ≠ 0xFFFF) := by
  refine codePoint_elim mem i (fun r =>
      r.1 = 0 ∨ r.1 = UNICODE_BOGUS_CHAR_VALUE ∨
      (r.1 ≤ 0x10FFFF ∧ r.1 ≠ 0xD800 ∧ r.1 ≠ 0xDB7F ∧ r.1 ≠ 0xDB80 ∧
       r.1 ≠ 0xDBFF ∧ r.1 ≠ 0xDC00 ∧ r.1 ≠ 0xDF80 ∧ r.1 ≠ 0xDFFF ∧
       r.1 ≠ 0xFFFE ∧ r.1 ≠ 0xFFFF)) ?_ ?_ ?_ ?_ ?_ ?_ <;>
    intros <;> dsimp only <;> omega

/-- C9: at a nonzero leading byte a decoder call advances the cursor by at
least one byte, and consequently the transcoding loop is single-pass:
its number of decoder calls never exceeds the cursor travel plus one (one
final call observes the end of string or the capacity limit). -/
theorem C9_forward_progress (mem : Nat → Nat) (i len : Nat) :
    (mem i % 256 ≠ 0 → i + 1 ≤ (FAudio_UTF8_CodePoint mem i).2) ∧
    (FAudio_To_UTF16_loop mem i len).2.2 ≤
      (FAudio_To_UTF16_loop mem i len).2.1 - i + 1 := by
  constructor
  · intro hne
    refine codePoint_elim mem i (fun r => i + 1 ≤ r.2) ?_ ?_ ?_ ?_ ?_ ?_ <;>
      intros <;> dsimp only <;> omega
  · exact loop_calls_le mem len i

/-- Witness for C9 at the source `"A"` with budget 100. -/
theorem C9_witness :
    0 + 1 ≤ (FAudio_UTF8_CodePoint memA 0).2 ∧
    (FAudio_To_UTF16_loop memA 0 100).2.2 ≤
      (FAudio_To_UTF16_loop memA 0 100).2.1 - 0 + 1 :=
  ⟨(C9_forward_progress memA 0 100).1 (by decide),
   (C9_forward_progress memA 0 100).2⟩

/-- C10: evaluation at the failing input.  `memSix` and `memSixA` agree on
every byte up to and including the terminator at index 6 and differ only at
index 7, past the terminator; yet the transcoder produces different outputs,
because the well-formed six-octet sequence advances the cursor 7 bytes
(`(*_str)++` then `*_str += 6`), skipping over the terminator, after which
the loop keeps decoding bytes beyond it.  The decoder itself does return 0
at a terminator without advancing, but the transcode loop still reads past
the terminator here. -/
theorem C10_reads_past_terminator :
    FAudio_UTF8_To_UTF16 memSix 100 = [0x3F, 0] ∧
    FAudio_UTF8_To_UTF16 memSixA 100 = [0x3F, 0x41, 0] := by
  have hdA0 : FAudio_UTF8_CodePoint memSix 0 = (UNICODE_BOGUS_CHAR_VALUE, 7) := rfl
  have hdA7 : FAudio_UTF8_CodePoint memSix 7 = (0, 7) := rfl
  have hdB0 : FAudio_UTF8_CodePoint memSixA 0 = (UNICODE_BOGUS_CHAR_VALUE, 7) := rfl
  have hdB7 : FAudio_UTF8_CodePoint memSixA 7 = (0x41, 8) := rfl
  have hdB8 : FAudio_UTF8_CodePoint memSixA 8 = (0, 8) := rfl
  constructor
  · rw [FAudio_UTF8_To_UTF16,
        (by omega : ((100:Nat) + (2 ^ 64 - 2)) % 2 ^ 64 = 98),
        loop_single memSix 0 98 (by omega) (by rw [hdA0]; decide) (by rw [hdA0]; decide),
        hdA0]
    dsimp only
    rw [loop_eos memSix 7 (98 - 2) (by omega) (by rw [hdA7])]
    norm_num [UNICODE_BOGUS_CHAR_VALUE, UNICODE_BOGUS_CHAR_CODEPOINT]
  · rw [FAudio_UTF8_To_UTF16,
        (by omega : ((100:Nat) + (2 ^ 64 - 2)) % 2 ^ 64 = 98),
        loop_single memSixA 0 98 (by omega) (by rw [hdB0]; decide) (by rw [hdB0]; decide),
        hdB0]
    dsimp only
    rw [loop_single memSixA 7 (98 - 2) (by omega) (by rw [hdB7]; decide)
          (by rw [hdB7]; decide),
        hdB7]
    dsimp only
    rw [loop_eos memSixA 8 (98 - 2 - 2) (by omega) (by rw [hdB8])]
    norm_num [UNICODE_BOGUS_CHAR_VALUE, UNICODE_BOGUS_CHAR_CODEPOINT]

end FAudioC
